import Mathlib

/-!
Verification of `scripts/create_meta_definitions.mjs`, the idempotent
Shopify metaobject/metafield definition provisioner of the QFlex theme
repository. The script is shallowly embedded: environment lookup,
the GraphQL transport wrapper, the two creation functions with their
regex-based duplicate suppression, and the sequential `main` loop are
translated into executable Lean definitions; console output and the
process exit code are made explicit in the result, and the remote API
is a parameter (a state-transition function) so that mock and
persistent backends can be plugged in.
-/

/-- Environment as seen by the script: the three variables destructured
from `process.env`; `none` models an undefined variable. -/
structure Env where
  SHOPIFY_STORE : Option String
  SHOPIFY_ADMIN_ACCESS_TOKEN : Option String
  SHOPIFY_API_VERSION : Option String
deriving DecidableEq, Repr

/-- JavaScript truthiness of an environment variable value: `undefined`
and the empty string are falsy, every other string is truthy. -/
def isTruthy : Option String → Bool
  | none => false
  | some s => !(s == "")

/-- Mirrors `assertEnv`: the list of names pushed onto `missing`,
in the source's order. -/
def missingVars (e : Env) : List String :=
  (if !isTruthy e.SHOPIFY_STORE then ["SHOPIFY_STORE"] else []) ++
  (if !isTruthy e.SHOPIFY_ADMIN_ACCESS_TOKEN then ["SHOPIFY_ADMIN_ACCESS_TOKEN"] else []) ++
  (if !isTruthy e.SHOPIFY_API_VERSION then ["SHOPIFY_API_VERSION"] else [])

/-- A user-level error object `{field, message}` from a mutation payload. -/
structure UserError where
  field : String
  message : String
deriving DecidableEq, Repr

/-- The payload of one create mutation; `userErrors` is `none` when the
JSON lacks the field (JS `undefined`/`null`, falsy), `some l` when the
array `l` is present. -/
structure MutationResult where
  userErrors : Option (List UserError)
deriving DecidableEq, Repr

/-- The `data` object of a response body; each mutation field is `none`
when absent (reading through it in JS yields `undefined`). -/
structure DataField where
  metaobjectDefinitionCreate : Option MutationResult
  metafieldDefinitionCreate : Option MutationResult
deriving DecidableEq, Repr

/-- A parsed JSON response body `{ data, errors }`; `errors = some l`
models a present top-level `errors` array (truthy even when empty),
`none` models an absent or null field (falsy); `data = none` models an
absent or null `data` field. -/
structure GqlBody where
  data : Option DataField
  errors : Option (List String)
deriving DecidableEq, Repr

/-- An HTTP response as consumed by `shopifyGraphQL`: `ok` is `res.ok`,
and `body` is what `res.json()` would produce. -/
structure HttpResponse where
  ok : Bool
  status : Nat
  statusText : String
  body : GqlBody
deriving DecidableEq, Repr

/-- A thrown JavaScript exception: `error m` is `throw new Error(m)`;
`typeError m` is the runtime `TypeError` raised by reading a property
of `undefined`. Both are caught by the top-level `main().catch`. -/
inductive JsErr where
  | error (msg : String)
  | typeError (msg : String)
deriving DecidableEq, Repr

/-- Placeholder for `JSON.stringify` on a top-level `errors` array whose
elements are kept opaque as strings. -/
def jsonStringify (es : List String) : String :=
  "[" ++ String.intercalate "," es ++ "]"

/-- Mirrors `shopifyGraphQL` after the fetch: a non-success status throws
before the body is read; otherwise the parsed body is returned. -/
def shopifyGraphQL (res : HttpResponse) : Except JsErr GqlBody :=
  if !res.ok then
    Except.error (JsErr.error
      ("GraphQL request failed: " ++ toString res.status ++ " " ++ res.statusText))
  else
    Except.ok res.body

/-- Whether `chs` starts with `p`, on explicit character lists. -/
def startsWithChs : List Char → List Char → Bool
  | [], _ => true
  | _ :: _, [] => false
  | p :: ps, c :: cs => p == c && startsWithChs ps cs

/-- Search for `post` at the current position or, crossing only
non-newline characters (JS `.` does not match a newline), further right. -/
def findPost (post : List Char) : List Char → Bool
  | [] => startsWithChs post []
  | c :: cs => startsWithChs post (c :: cs) || (!(c == '\n') && findPost post cs)

/-- Unanchored search for `pre`, followed (with only non-newline
characters between) by `post`. -/
def searchPat (pre post : List Char) : List Char → Bool
  | [] => startsWithChs pre [] && findPost post []
  | c :: cs =>
    (startsWithChs pre (c :: cs) && findPost post (List.drop pre.length (c :: cs))) ||
    searchPat pre post cs

/-- JS `/pre.*post/i.test msg` for lowercase literals `pre` and `post`:
case-insensitivity is modelled by lowercasing the subject character by
character. -/
def reTest (pre post msg : String) : Bool :=
  searchPat pre.toList post.toList (msg.toList.map Char.toLower)

/-- The metaobject duplicate heuristic `/type.*already exists/i`. -/
def metaobjectDupe (msg : String) : Bool :=
  reTest "type" "already exists" msg

/-- The metafield duplicate heuristic `/definition.*already exists/i`. -/
def metafieldDupe (msg : String) : Bool :=
  reTest "definition" "already exists" msg

/-- One field definition of a metaobject definition spec. -/
structure FieldDef where
  key : String
  name : String
  description : String
  type : String
  required : Bool
deriving DecidableEq, Repr

/-- A metaobject definition spec as passed to `createMetaobject`. -/
structure MetaobjectDef where
  name : String
  type : String
  fieldDefinitions : List FieldDef
deriving DecidableEq, Repr

/-- A metafield definition spec as passed to `createMetafield`. -/
structure MetafieldDef where
  name : String
  nspace : String
  key : String
  type : String
  description : String
  ownerType : String
deriving DecidableEq, Repr

/-- Console output relevant to the spec: the two error dumps, the missing
environment variable report, the final confirmation, and the top-level
catch handler's dump of a thrown exception. -/
inductive LogEntry where
  | metaobjectErrors (type : String) (errs : List UserError)
  | metafieldErrors (key : String) (errs : List UserError)
  | missingEnv (names : List String)
  | ensured
  | caughtErr (e : JsErr)
deriving DecidableEq, Repr

/-- Mirrors `createMetaobject` applied to the response the remote API
gave for its mutation: destructure `{data, errors}`, throw on a truthy
`errors`, read `data.metaobjectDefinitionCreate` (a `TypeError` when
`data` is undefined), then filter `userErrors` through the duplicate
heuristic, logging and throwing when a non-duplicate error remains. -/
def createMetaobject (res : HttpResponse) (d : MetaobjectDef) :
    Except JsErr Unit × List LogEntry :=
  match shopifyGraphQL res with
  | Except.error e => (Except.error e, [])
  | Except.ok body =>
    match body.errors with
    | some es => (Except.error (JsErr.error (jsonStringify es)), [])
    | none =>
      match body.data with
      | none =>
        (Except.error (JsErr.typeError
          "Cannot read properties of undefined (reading metaobjectDefinitionCreate)"), [])
      | some df =>
        match df.metaobjectDefinitionCreate with
        | none =>
          (Except.error (JsErr.typeError
            "Cannot read properties of undefined (reading userErrors)"), [])
        | some result =>
          match result.userErrors with
          | none => (Except.ok (), [])
          | some ues =>
            if ues.length ≠ 0 then
              let nonDupeErrors := ues.filter (fun err => !metaobjectDupe err.message)
              if nonDupeErrors.length ≠ 0 then
                (Except.error (JsErr.error "Metaobject creation failed"),
                 [LogEntry.metaobjectErrors d.type nonDupeErrors])
              else (Except.ok (), [])
            else (Except.ok (), [])

/-- Mirrors `createMetafield`, identical in shape to `createMetaobject`
but reading `data.metafieldDefinitionCreate` and using the
`/definition.*already exists/i` heuristic. -/
def createMetafield (res : HttpResponse) (d : MetafieldDef) :
    Except JsErr Unit × List LogEntry :=
  match shopifyGraphQL res with
  | Except.error e => (Except.error e, [])
  | Except.ok body =>
    match body.errors with
    | some es => (Except.error (JsErr.error (jsonStringify es)), [])
    | none =>
      match body.data with
      | none =>
        (Except.error (JsErr.typeError
          "Cannot read properties of undefined (reading metafieldDefinitionCreate)"), [])
      | some df =>
        match df.metafieldDefinitionCreate with
        | none =>
          (Except.error (JsErr.typeError
            "Cannot read properties of undefined (reading userErrors)"), [])
        | some result =>
          match result.userErrors with
          | none => (Except.ok (), [])
          | some ues =>
            if ues.length ≠ 0 then
              let nonDupeErrors := ues.filter (fun err => !metafieldDupe err.message)
              if nonDupeErrors.length ≠ 0 then
                (Except.error (JsErr.error "Metafield creation failed"),
                 [LogEntry.metafieldErrors d.key nonDupeErrors])
              else (Except.ok (), [])
            else (Except.ok (), [])

/-- The fixed metaobject catalog of `main`, transcribed verbatim. -/
def metaobjects : List MetaobjectDef :=
  [ { name := "Badge", type := "badge",
      fieldDefinitions :=
        [ { key := "label", name := "Label",
            description := "Short text for the badge label",
            type := "single_line_text_field", required := true },
          { key := "icon", name := "Icon",
            description := "Icon file for the badge",
            type := "file_reference", required := true },
          { key := "color", name := "Color",
            description := "Optional color name for the badge",
            type := "single_line_text_field", required := false } ] },
    { name := "Testimonial", type := "testimonial",
      fieldDefinitions :=
        [ { key := "name", name := "Name",
            description := "Name of the person giving the testimonial",
            type := "single_line_text_field", required := true },
          { key := "quote", name := "Quote",
            description := "The testimonial text",
            type := "multi_line_text_field", required := true },
          { key := "pain_area", name := "Pain Area",
            description := "The customer pain area addressed",
            type := "single_line_text_field", required := true } ] },
    { name := "Press logo", type := "press_logo",
      fieldDefinitions :=
        [ { key := "image", name := "Image",
            description := "Logo image",
            type := "file_reference", required := true },
          { key := "url", name := "URL",
            description := "Link to the press article",
            type := "url", required := true } ] } ]

/-- The fixed product metafield catalog of `main`, transcribed verbatim
(`nspace` stands for the source's `namespace` property). -/
def metafields : List MetafieldDef :=
  [ { name := "Hero eyebrow", nspace := "qf", key := "hero_eyebrow",
      type := "single_line_text_field",
      description := "Eyebrow text displayed above product title",
      ownerType := "PRODUCT" },
    { name := "Review count", nspace := "qf", key := "review_count",
      type := "number_integer",
      description := "Total number of reviews",
      ownerType := "PRODUCT" },
    { name := "Average rating", nspace := "qf", key := "avg_rating",
      type := "number_decimal",
      description := "Average customer rating",
      ownerType := "PRODUCT" },
    { name := "USP pills", nspace := "qf", key := "usp_pills",
      type := "list.single_line_text_field",
      description := "Unique selling proposition pills",
      ownerType := "PRODUCT" } ]

/-- A request issued by the run: one create mutation, identified by the
mutation used and its `definition` variable. -/
inductive GqlRequest where
  | metaobjectCreate (d : MetaobjectDef)
  | metafieldCreate (d : MetafieldDef)
deriving DecidableEq, Repr

/-- Dispatch a received response to the creation function that issued
the request. -/
def execReq (res : HttpResponse) : GqlRequest → Except JsErr Unit × List LogEntry
  | GqlRequest.metaobjectCreate d => createMetaobject res d
  | GqlRequest.metafieldCreate d => createMetafield res d

/-- Result of one awaited `for … of` pass: the backend state after the
requests actually issued, those requests in order, the console output,
and the exception that aborted the pass, when one was thrown. -/
structure SeqResult (σ : Type) where
  state : σ
  requests : List GqlRequest
  log : List LogEntry
  err : Option JsErr
deriving Repr

/-- One sequential, short-circuiting pass: each request is sent and its
response processed before the next request; a thrown exception stops
the pass at once (mirrors `for (const def of …) await create…(def)`). -/
def runSeq {σ : Type} (step : σ → GqlRequest → σ × HttpResponse) :
    σ → List GqlRequest → SeqResult σ
  | s, [] => ⟨s, [], [], none⟩
  | s, req :: rest =>
    match execReq (step s req).2 req with
    | (Except.error e, lg) => ⟨(step s req).1, [req], lg, some e⟩
    | (Except.ok _, lg) =>
      ⟨(runSeq step (step s req).1 rest).state,
       req :: (runSeq step (step s req).1 rest).requests,
       lg ++ (runSeq step (step s req).1 rest).log,
       (runSeq step (step s req).1 rest).err⟩

/-- The seven requests `main` issues when nothing fails: the metaobject
catalog in order, then the metafield catalog in order. -/
def plannedRequests : List GqlRequest :=
  metaobjects.map GqlRequest.metaobjectCreate ++
  metafields.map GqlRequest.metafieldCreate

/-- Observable outcome of one process run: exit code, console output in
order, the requests sent to the remote API, the exception that reached
`main().catch` (when any), and the backend's final state. -/
structure RunResult (σ : Type) where
  exitCode : Nat
  log : List LogEntry
  requests : List GqlRequest
  err : Option JsErr
  finalState : σ
deriving Repr

/-- The body of `main` after `assertEnv` has passed: the metaobject pass,
then (only if it completed) the metafield pass, then the confirmation
log; an exception reaches `main().catch`, which logs it and exits 1. -/
def mainBody {σ : Type} (step : σ → GqlRequest → σ × HttpResponse) (s0 : σ) :
    RunResult σ :=
  match runSeq step s0 (metaobjects.map GqlRequest.metaobjectCreate) with
  | ⟨s1, reqs1, lg1, some e⟩ =>
    ⟨1, lg1 ++ [LogEntry.caughtErr e], reqs1, some e, s1⟩
  | ⟨s1, reqs1, lg1, none⟩ =>
    match runSeq step s1 (metafields.map GqlRequest.metafieldCreate) with
    | ⟨s2, reqs2, lg2, some e⟩ =>
      ⟨1, lg1 ++ lg2 ++ [LogEntry.caughtErr e], reqs1 ++ reqs2, some e, s2⟩
    | ⟨s2, reqs2, lg2, none⟩ =>
      ⟨0, lg1 ++ lg2 ++ [LogEntry.ensured], reqs1 ++ reqs2, none, s2⟩

/-- A whole run of the script against a remote API modelled by `step`
over backend state `σ`: `assertEnv` reports the missing variable names
and exits 1 before any request; otherwise `mainBody` runs. -/
def mainRun {σ : Type} (env : Env) (step : σ → GqlRequest → σ × HttpResponse)
    (s0 : σ) : RunResult σ :=
  if (missingVars env).length ≠ 0 then
    ⟨1, [LogEntry.missingEnv (missingVars env)], [], none, s0⟩
  else
    mainBody step s0

/-- A fully populated environment, used as a concrete valid configuration. -/
def envFull : Env := ⟨some "getqflex", some "shpat_token", some "2024-07"⟩

/-- A stateless mock remote API that answers every request with a clean
success payload (empty `userErrors` for both mutations). -/
def stepUnit : Unit → GqlRequest → Unit × HttpResponse :=
  fun _ _ => ((), ⟨true, 200, "OK", ⟨some ⟨some ⟨some []⟩, some ⟨some []⟩⟩, none⟩⟩)

/-- An HTTP-success response whose JSON body has neither a top-level
`errors` field nor a `data` field. -/
def respNoData : HttpResponse := ⟨true, 200, "OK", ⟨none, none⟩⟩

/-- An HTTP-success response whose body has a `data` object that lacks
both mutation result fields. -/
def respNoMutation : HttpResponse := ⟨true, 200, "OK", ⟨some ⟨none, none⟩, none⟩⟩

/-- The `userErrors` filter is empty exactly when every message passes
the duplicate heuristic `p`. -/
theorem filterNilIffAll (p : String → Bool) (ues : List UserError) :
    (ues.filter (fun e => !p e.message) = [] ↔ ∀ e ∈ ues, p e.message = true) := by
  rw [List.filter_eq_nil_iff]
  simp

/-- Taking at most the length of the left part of an append stays in the
left part. -/
theorem takeAppendLe {α : Type} :
    ∀ (l₁ l₂ : List α) (k : Nat), k ≤ l₁.length → (l₁ ++ l₂).take k = l₁.take k := by
  intro l₁
  induction l₁ with
  | nil => intro l₂ k hk; simp at hk; simp [hk]
  | cons a l ih =>
    intro l₂ k hk
    cases k with
    | zero => simp
    | succ k => simp only [List.cons_append, List.take_succ_cons]
                rw [ih l₂ k (Nat.le_of_succ_le_succ hk)]

/-- Taking the left part's length plus `k` from an append keeps the left
part whole and takes `k` from the right part. -/
theorem takeAppendAdd {α : Type} :
    ∀ (l₁ l₂ : List α) (k : Nat), (l₁ ++ l₂).take (l₁.length + k) = l₁ ++ l₂.take k := by
  intro l₁
  induction l₁ with
  | nil => intro l₂ k; simp
  | cons a l ih =>
    intro l₂ k
    simp only [List.cons_append, List.length_cons]
    rw [Nat.succ_add, List.take_succ_cons, ih l₂ k]

/-- C4: the fixed catalog provisioned by `main` is exactly the three
metaobject types `badge`, `testimonial`, `press_logo` and the four
product metafields `hero_eyebrow : single_line_text_field`,
`review_count : number_integer`, `avg_rating : number_decimal`,
`usp_pills : list.single_line_text_field`, all in namespace `qf` with
owner type `PRODUCT`. -/
theorem catalogMatches :
    metaobjects.map MetaobjectDef.type = ["badge", "testimonial", "press_logo"] ∧
    metaobjects.length = 3 ∧
    metafields.length = 4 ∧
    metafields.map (fun d => (d.nspace, d.key, d.type, d.ownerType)) =
      [("qf", "hero_eyebrow", "single_line_text_field", "PRODUCT"),
       ("qf", "review_count", "number_integer", "PRODUCT"),
       ("qf", "avg_rating", "number_decimal", "PRODUCT"),
       ("qf", "usp_pills", "list.single_line_text_field", "PRODUCT")] :=
  ⟨rfl, rfl, rfl, rfl⟩

/-- C5: a non-success HTTP status makes `shopifyGraphQL` throw the
transport error without inspecting the body (the result is the same for
every body), and both creation functions propagate it with no duplicate
suppression and no logging. -/
theorem transportErrorAborts (res : HttpResponse) (h : res.ok = false) :
    (∀ b : GqlBody, shopifyGraphQL { res with body := b } = shopifyGraphQL res) ∧
    shopifyGraphQL res = Except.error (JsErr.error
      ("GraphQL request failed: " ++ toString res.status ++ " " ++ res.statusText)) ∧
    (∀ d, createMetaobject res d = (Except.error (JsErr.error
      ("GraphQL request failed: " ++ toString res.status ++ " " ++ res.statusText)), [])) ∧
    (∀ d, createMetafield res d = (Except.error (JsErr.error
      ("GraphQL request failed: " ++ toString res.status ++ " " ++ res.statusText)), [])) := by
  obtain ⟨ok, st, sx, b⟩ := res
  simp only at h
  subst h
  refine ⟨fun b2 => rfl, rfl, fun d => rfl, fun d => rfl⟩

/-- C5 witness: an HTTP 500 response is rejected as a transport error. -/
theorem transportErrorAborts_witness :
    (⟨false, 500, "Internal Server Error", ⟨none, none⟩⟩ : HttpResponse).ok = false ∧
    shopifyGraphQL ⟨false, 500, "Internal Server Error", ⟨none, none⟩⟩ =
      Except.error (JsErr.error "GraphQL request failed: 500 Internal Server Error") :=
  ⟨rfl, (transportErrorAborts ⟨false, 500, "Internal Server Error", ⟨none, none⟩⟩ rfl).2.1⟩

/-- C6: a response body with a top-level `errors` field makes both
creation functions throw the serialized errors, whatever the `data`
payload holds (so `userErrors` is never consulted). -/
theorem topLevelErrorsFatal (dat : Option DataField) (es : List String)
    (st : Nat) (sx : String) (d : MetaobjectDef) (dm : MetafieldDef) :
    createMetaobject ⟨true, st, sx, ⟨dat, some es⟩⟩ d =
      (Except.error (JsErr.error (jsonStringify es)), []) ∧
    createMetafield ⟨true, st, sx, ⟨dat, some es⟩⟩ dm =
      (Except.error (JsErr.error (jsonStringify es)), []) :=
  ⟨rfl, rfl⟩

/-- C9: an environment variable set to the empty string is handled like
an absent one: `missingVars` and the whole run agree between the two,
the name is reported as missing, and the run exits 1 with no request. -/
theorem emptyEnvVarLikeAbsent {σ : Type} (e : Env)
    (step : σ → GqlRequest → σ × HttpResponse) (s0 : σ) :
    (missingVars ⟨some "", e.SHOPIFY_ADMIN_ACCESS_TOKEN, e.SHOPIFY_API_VERSION⟩ =
       missingVars ⟨none, e.SHOPIFY_ADMIN_ACCESS_TOKEN, e.SHOPIFY_API_VERSION⟩) ∧
    (missingVars ⟨e.SHOPIFY_STORE, some "", e.SHOPIFY_API_VERSION⟩ =
       missingVars ⟨e.SHOPIFY_STORE, none, e.SHOPIFY_API_VERSION⟩) ∧
    (missingVars ⟨e.SHOPIFY_STORE, e.SHOPIFY_ADMIN_ACCESS_TOKEN, some ""⟩ =
       missingVars ⟨e.SHOPIFY_STORE, e.SHOPIFY_ADMIN_ACCESS_TOKEN, none⟩) ∧
    (mainRun ⟨some "", e.SHOPIFY_ADMIN_ACCESS_TOKEN, e.SHOPIFY_API_VERSION⟩ step s0 =
       mainRun ⟨none, e.SHOPIFY_ADMIN_ACCESS_TOKEN, e.SHOPIFY_API_VERSION⟩ step s0) ∧
    ("SHOPIFY_STORE" ∈
       missingVars ⟨some "", e.SHOPIFY_ADMIN_ACCESS_TOKEN, e.SHOPIFY_API_VERSION⟩) ∧
    ("SHOPIFY_ADMIN_ACCESS_TOKEN" ∈
       missingVars ⟨e.SHOPIFY_STORE, some "", e.SHOPIFY_API_VERSION⟩) ∧
    ("SHOPIFY_API_VERSION" ∈
       missingVars ⟨e.SHOPIFY_STORE, e.SHOPIFY_ADMIN_ACCESS_TOKEN, some ""⟩) ∧
    ((mainRun ⟨some "", e.SHOPIFY_ADMIN_ACCESS_TOKEN, e.SHOPIFY_API_VERSION⟩ step s0).requests
       = []) ∧
    ((mainRun ⟨some "", e.SHOPIFY_ADMIN_ACCESS_TOKEN, e.SHOPIFY_API_VERSION⟩ step s0).exitCode
       = 1) := by
  refine ⟨rfl, ?_, ?_, rfl, ?_, ?_, ?_, ?_, ?_⟩ <;>
    simp [missingVars, isTruthy, mainRun]

/-- C10: a success response whose body lacks `data` (or whose `data`
lacks the mutation result) makes both creation functions fault with a
runtime `TypeError` rather than a classified error, and the top-level
catch still turns this into a non-zero exit. -/
theorem missingDataTypeError (d : MetaobjectDef) (dm : MetafieldDef) :
    (createMetaobject respNoData d).1 = Except.error (JsErr.typeError
      "Cannot read properties of undefined (reading metaobjectDefinitionCreate)") ∧
    (createMetafield respNoData dm).1 = Except.error (JsErr.typeError
      "Cannot read properties of undefined (reading metafieldDefinitionCreate)") ∧
    (createMetaobject respNoMutation d).1 = Except.error (JsErr.typeError
      "Cannot read properties of undefined (reading userErrors)") ∧
    (createMetafield respNoMutation dm).1 = Except.error (JsErr.typeError
      "Cannot read properties of undefined (reading userErrors)") ∧
    (mainRun envFull (fun (_ : Unit) _ => ((), respNoData)) ()).exitCode = 1 ∧
    LogEntry.caughtErr (JsErr.typeError
        "Cannot read properties of undefined (reading metaobjectDefinitionCreate)") ∈
      (mainRun envFull (fun (_ : Unit) _ => ((), respNoData)) ()).log := by
  refine ⟨rfl, rfl, rfl, rfl, ?_, ?_⟩ <;> decide

/-- C3: each of the three variable names appears in the reported list
exactly when that variable is not truthy, and a non-empty missing list
makes the run exit 1 after logging exactly those names, with no request
sent. -/
theorem missingEnvReported {σ : Type} (env : Env)
    (step : σ → GqlRequest → σ × HttpResponse) (s0 : σ) :
    ("SHOPIFY_STORE" ∈ missingVars env ↔ isTruthy env.SHOPIFY_STORE = false) ∧
    ("SHOPIFY_ADMIN_ACCESS_TOKEN" ∈ missingVars env ↔
       isTruthy env.SHOPIFY_ADMIN_ACCESS_TOKEN = false) ∧
    ("SHOPIFY_API_VERSION" ∈ missingVars env ↔
       isTruthy env.SHOPIFY_API_VERSION = false) ∧
    (missingVars env ≠ [] →
       mainRun env step s0 =
         ⟨1, [LogEntry.missingEnv (missingVars env)], [], none, s0⟩) := by
  obtain ⟨a, b, c⟩ := env
  refine ⟨?_, ?_, ?_, ?_⟩
  · cases ha : isTruthy a <;> cases hb : isTruthy b <;> cases hc : isTruthy c <;>
      simp [missingVars, ha, hb, hc]
  · cases ha : isTruthy a <;> cases hb : isTruthy b <;> cases hc : isTruthy c <;>
      simp [missingVars, ha, hb, hc]
  · cases ha : isTruthy a <;> cases hb : isTruthy b <;> cases hc : isTruthy c <;>
      simp [missingVars, ha, hb, hc]
  · intro hne
    have hlen : (missingVars ⟨a, b, c⟩).length ≠ 0 := by
      simpa [List.length_eq_zero] using hne
    simp [mainRun, hlen]

/-- C3 witness: with only the store variable undefined, exactly that name
is reported, the run exits 1 and no request is sent. -/
theorem missingEnvReported_witness :
    missingVars ⟨none, some "t", some "v"⟩ ≠ [] ∧
    mainRun ⟨none, some "t", some "v"⟩ stepUnit () =
      ⟨1, [LogEntry.missingEnv ["SHOPIFY_STORE"]], [], none, ()⟩ := by
  refine ⟨by decide, ?_⟩
  have h := (missingEnvReported ⟨none, some "t", some "v"⟩ stepUnit ()).2.2.2 (by decide)
  simpa using h

/-- Reduction of `createMetaobject` on a success response carrying a
non-empty `userErrors` list. -/
theorem createMetaobject_userErrors (st : Nat) (sx : String) (ues : List UserError)
    (mf : Option MutationResult) (d : MetaobjectDef) (hlen : ues.length ≠ 0) :
    createMetaobject ⟨true, st, sx, ⟨some ⟨some ⟨some ues⟩, mf⟩, none⟩⟩ d =
      if (ues.filter (fun e => !metaobjectDupe e.message)).length ≠ 0 then
        (Except.error (JsErr.error "Metaobject creation failed"),
         [LogEntry.metaobjectErrors d.type (ues.filter (fun e => !metaobjectDupe e.message))])
      else (Except.ok (), []) := by
  simp only [createMetaobject, shopifyGraphQL, Bool.not_true]
  rw [if_neg (by simp)]
  simp only []
  rw [if_pos hlen]

/-- Reduction of `createMetafield` on a success response carrying a
non-empty `userErrors` list. -/
theorem createMetafield_userErrors (st : Nat) (sx : String) (ues : List UserError)
    (mo : Option MutationResult) (dm : MetafieldDef) (hlen : ues.length ≠ 0) :
    createMetafield ⟨true, st, sx, ⟨some ⟨mo, some ⟨some ues⟩⟩, none⟩⟩ dm =
      if (ues.filter (fun e => !metafieldDupe e.message)).length ≠ 0 then
        (Except.error (JsErr.error "Metafield creation failed"),
         [LogEntry.metafieldErrors dm.key (ues.filter (fun e => !metafieldDupe e.message))])
      else (Except.ok (), []) := by
  simp only [createMetafield, shopifyGraphQL, Bool.not_true]
  rw [if_neg (by simp)]
  simp only []
  rw [if_pos hlen]

/-- C1: on a success response with a non-empty `userErrors` list,
`createMetaobject` returns without error exactly when every message
matches `/type.*already exists/i`; otherwise the non-matching errors are
logged with field and message and the call throws. The same holds for
`createMetafield` with `/definition.*already exists/i`. -/
theorem userErrorsClassified (st : Nat) (sx : String) (ues : List UserError)
    (mo mf : Option MutationResult) (d : MetaobjectDef) (dm : MetafieldDef)
    (h : ues ≠ []) :
    ((createMetaobject ⟨true, st, sx, ⟨some ⟨some ⟨some ues⟩, mf⟩, none⟩⟩ d).1 = Except.ok ()
       ↔ ∀ e ∈ ues, metaobjectDupe e.message = true) ∧
    (ues.filter (fun e => !metaobjectDupe e.message) ≠ [] →
       createMetaobject ⟨true, st, sx, ⟨some ⟨some ⟨some ues⟩, mf⟩, none⟩⟩ d =
         (Except.error (JsErr.error "Metaobject creation failed"),
          [LogEntry.metaobjectErrors d.type
            (ues.filter (fun e => !metaobjectDupe e.message))])) ∧
    ((createMetafield ⟨true, st, sx, ⟨some ⟨mo, some ⟨some ues⟩⟩, none⟩⟩ dm).1 = Except.ok ()
       ↔ ∀ e ∈ ues, metafieldDupe e.message = true) ∧
    (ues.filter (fun e => !metafieldDupe e.message) ≠ [] →
       createMetafield ⟨true, st, sx, ⟨some ⟨mo, some ⟨some ues⟩⟩, none⟩⟩ dm =
         (Except.error (JsErr.error "Metafield creation failed"),
          [LogEntry.metafieldErrors dm.key
            (ues.filter (fun e => !metafieldDupe e.message))])) := by
  have hlen : ues.length ≠ 0 := by simpa [List.length_eq_zero] using h
  have hmo := createMetaobject_userErrors st sx ues mf d hlen
  have hmf := createMetafield_userErrors st sx ues mo dm hlen
  refine ⟨?_, ?_, ?_, ?_⟩
  · rw [hmo]
    by_cases hf : ues.filter (fun e => !metaobjectDupe e.message) = []
    · rw [if_neg (by simp [hf])]
      simpa using (filterNilIffAll metaobjectDupe ues).mp hf
    · rw [if_pos (by simpa [List.length_eq_zero] using hf)]
      simp only [List.mem_filter]
      constructor
      · intro hcontra; exact absurd hcontra (by simp)
      · intro hall; exact absurd hall ((not_congr (filterNilIffAll metaobjectDupe ues)).mp hf)
  · intro hf
    rw [hmo, if_pos (by simpa [List.length_eq_zero] using hf)]
  · rw [hmf]
    by_cases hf : ues.filter (fun e => !metafieldDupe e.message) = []
    · rw [if_neg (by simp [hf])]
      simpa using (filterNilIffAll metafieldDupe ues).mp hf
    · rw [if_pos (by simpa [List.length_eq_zero] using hf)]
      simp only [List.mem_filter]
      constructor
      · intro hcontra; exact absurd hcontra (by simp)
      · intro hall; exact absurd hall ((not_congr (filterNilIffAll metafieldDupe ues)).mp hf)
  · intro hf
    rw [hmf, if_pos (by simpa [List.length_eq_zero] using hf)]

/-- C1 witness: a single user error whose message matches neither
heuristic is classified as fatal for both creation functions. -/
theorem userErrorsClassified_witness :
    ([⟨"f", "boom"⟩] : List UserError) ≠ [] ∧
    (((createMetaobject ⟨true, 200, "OK",
          ⟨some ⟨some ⟨some [⟨"f", "boom"⟩]⟩, none⟩, none⟩⟩ ⟨"Badge", "badge", []⟩).1 =
            Except.ok ()
       ↔ ∀ e ∈ ([⟨"f", "boom"⟩] : List UserError), metaobjectDupe e.message = true) ∧
     (([⟨"f", "boom"⟩] : List UserError).filter (fun e => !metaobjectDupe e.message) ≠ [] →
       createMetaobject ⟨true, 200, "OK",
           ⟨some ⟨some ⟨some [⟨"f", "boom"⟩]⟩, none⟩, none⟩⟩ ⟨"Badge", "badge", []⟩ =
         (Except.error (JsErr.error "Metaobject creation failed"),
          [LogEntry.metaobjectErrors (MetaobjectDef.type ⟨"Badge", "badge", []⟩)
            (([⟨"f", "boom"⟩] : List UserError).filter
              (fun e => !metaobjectDupe e.message))])) ∧
     (((createMetafield ⟨true, 200, "OK",
          ⟨some ⟨none, some ⟨some [⟨"f", "boom"⟩]⟩⟩, none⟩⟩
          ⟨"N", "qf", "k", "t", "d", "PRODUCT"⟩).1 = Except.ok ()
       ↔ ∀ e ∈ ([⟨"f", "boom"⟩] : List UserError), metafieldDupe e.message = true)) ∧
     (([⟨"f", "boom"⟩] : List UserError).filter (fun e => !metafieldDupe e.message) ≠ [] →
       createMetafield ⟨true, 200, "OK",
           ⟨some ⟨none, some ⟨some [⟨"f", "boom"⟩]⟩⟩, none⟩⟩
           ⟨"N", "qf", "k", "t", "d", "PRODUCT"⟩ =
         (Except.error (JsErr.error "Metafield creation failed"),
          [LogEntry.metafieldErrors (MetafieldDef.key ⟨"N", "qf", "k", "t", "d", "PRODUCT"⟩)
            (([⟨"f", "boom"⟩] : List UserError).filter
              (fun e => !metafieldDupe e.message))]))) :=
  ⟨by decide,
   userErrorsClassified 200 "OK" [⟨"f", "boom"⟩] none none ⟨"Badge", "badge", []⟩
     ⟨"N", "qf", "k", "t", "d", "PRODUCT"⟩ (by decide)⟩

/-- The requests a pass actually issues are always an initial segment of
the pass's list, and the whole list when no exception was thrown. -/
theorem runSeq_take {σ : Type} (step : σ → GqlRequest → σ × HttpResponse) :
    ∀ (l : List GqlRequest) (s : σ),
      ∃ k, k ≤ l.length ∧ (runSeq step s l).requests = l.take k ∧
        ((runSeq step s l).err = none → (runSeq step s l).requests = l) := by
  intro l
  induction l with
  | nil =>
    intro s
    exact ⟨0, by simp [runSeq]⟩
  | cons req rest ih =>
    intro s
    rcases hx : execReq (step s req).2 req with ⟨res, lg⟩
    cases res with
    | error e =>
      refine ⟨1, by simp, ?_, ?_⟩
      · simp [runSeq, hx]
      · simp [runSeq, hx]
    | ok u =>
      obtain ⟨k, hk, hreq, hfull⟩ := ih (step s req).1
      refine ⟨k + 1, by simpa using Nat.succ_le_succ hk, ?_, ?_⟩
      · simp [runSeq, hx, hreq]
      · intro hnone
        simp only [runSeq, hx] at hnone ⊢
        simpa using hfull hnone

/-- Neither creation function ever logs the final confirmation line. -/
theorem execReq_no_ensured (r : HttpResponse) (req : GqlRequest) :
    LogEntry.ensured ∉ (execReq r req).2 := by
  cases req with
  | metaobjectCreate d =>
    simp only [execReq, createMetaobject]
    repeat' split
    all_goals simp
  | metafieldCreate d =>
    simp only [execReq, createMetafield]
    repeat' split
    all_goals simp

/-- A pass never logs the final confirmation line. -/
theorem runSeq_no_ensured {σ : Type} (step : σ → GqlRequest → σ × HttpResponse) :
    ∀ (l : List GqlRequest) (s : σ), LogEntry.ensured ∉ (runSeq step s l).log := by
  intro l
  induction l with
  | nil => intro s; simp [runSeq]
  | cons req rest ih =>
    intro s
    rcases hx : execReq (step s req).2 req with ⟨res, lg⟩
    have hlg : LogEntry.ensured ∉ lg := by
      have hall := execReq_no_ensured (step s req).2 req
      rw [hx] at hall
      simpa using hall
    cases res with
    | error e =>
      simp only [runSeq, hx]
      exact hlg
    | ok u =>
      simp only [runSeq, hx]
      intro hc
      rcases List.mem_append.mp hc with hc | hc
      · exact hlg hc
      · exact ih (step s req).1 hc

/-- When every request's response is processed without an exception, a
pass finishes with no exception. -/
theorem runSeq_allOk {σ : Type} (step : σ → GqlRequest → σ × HttpResponse)
    (hok : ∀ (s : σ) (req : GqlRequest), (execReq (step s req).2 req).1 = Except.ok ()) :
    ∀ (l : List GqlRequest) (s : σ), (runSeq step s l).err = none := by
  intro l
  induction l with
  | nil => intro s; simp [runSeq]
  | cons req rest ih =>
    intro s
    rcases hx : execReq (step s req).2 req with ⟨res, lg⟩
    have h1 : res = Except.ok () := by
      have hr := hok s req
      rw [hx] at hr
      simpa using hr
    subst h1
    simp only [runSeq, hx]
    exact ih (step s req).1

/-- C7: every run logs the confirmation line exactly once when it exits 0
and never otherwise (so there is no partial-success reporting), and a
run in which every spec resolves as created or suppressed duplicate
exits 0. -/
theorem fullSuccessSingleConfirmation {σ : Type} (env : Env)
    (step : σ → GqlRequest → σ × HttpResponse) (s0 : σ) :
    ((mainRun env step s0).log.count LogEntry.ensured =
       if (mainRun env step s0).exitCode = 0 then 1 else 0) ∧
    (missingVars env = [] →
       (∀ (s : σ) (req : GqlRequest), (execReq (step s req).2 req).1 = Except.ok ()) →
       (mainRun env step s0).exitCode = 0) := by
  constructor
  · by_cases hmv : (missingVars env).length ≠ 0
    · simp only [mainRun, if_pos hmv]
      simp [List.count_cons]
    · simp only [mainRun, if_neg hmv]
      rcases h1 : runSeq step s0 (metaobjects.map GqlRequest.metaobjectCreate)
        with ⟨s1, reqs1, lg1, err1⟩
      have hlg1 : LogEntry.ensured ∉ lg1 := by
        have hall := runSeq_no_ensured step (metaobjects.map GqlRequest.metaobjectCreate) s0
        rw [h1] at hall
        simpa using hall
      cases err1 with
      | some e =>
        simp only [mainBody, h1]
        have hz : (lg1 ++ [LogEntry.caughtErr e]).count LogEntry.ensured = 0 := by
          rw [List.count_eq_zero]
          intro hc
          rcases List.mem_append.mp hc with hc | hc
          · exact hlg1 hc
          · simp at hc
        simp [hz]
      | none =>
        rcases h2 : runSeq step s1 (metafields.map GqlRequest.metafieldCreate)
          with ⟨s2, reqs2, lg2, err2⟩
        have hlg2 : LogEntry.ensured ∉ lg2 := by
          have hall := runSeq_no_ensured step (metafields.map GqlRequest.metafieldCreate) s1
          rw [h2] at hall
          simpa using hall
        cases err2 with
        | some e =>
          simp only [mainBody, h1, h2]
          have c1 : lg1.count LogEntry.ensured = 0 := List.count_eq_zero.mpr hlg1
          have c2 : lg2.count LogEntry.ensured = 0 := List.count_eq_zero.mpr hlg2
          simp [List.count_append, c1, c2]
        | none =>
          simp only [mainBody, h1, h2]
          have c1 : lg1.count LogEntry.ensured = 0 := List.count_eq_zero.mpr hlg1
          have c2 : lg2.count LogEntry.ensured = 0 := List.count_eq_zero.mpr hlg2
          simp [List.count_append, c1, c2]
  · intro hmv hok
    have hlen0 : ¬(missingVars env).length ≠ 0 := by simp [hmv]
    simp only [mainRun, if_neg hlen0]
    rcases h1 : runSeq step s0 (metaobjects.map GqlRequest.metaobjectCreate)
      with ⟨s1, reqs1, lg1, err1⟩
    have he1 : err1 = none := by
      have hall := runSeq_allOk step hok (metaobjects.map GqlRequest.metaobjectCreate) s0
      rw [h1] at hall
      simpa using hall
    subst he1
    rcases h2 : runSeq step s1 (metafields.map GqlRequest.metafieldCreate)
      with ⟨s2, reqs2, lg2, err2⟩
    have he2 : err2 = none := by
      have hall := runSeq_allOk step hok (metafields.map GqlRequest.metafieldCreate) s1
      rw [h2] at hall
      simpa using hall
    subst he2
    simp only [mainBody, h1, h2]

/-- C7 witness: the clean mock backend run exits 0 and logs the
confirmation exactly once. -/
theorem fullSuccessSingleConfirmation_witness :
    missingVars envFull = [] ∧
    (mainRun envFull stepUnit ()).exitCode = 0 ∧
    (mainRun envFull stepUnit ()).log.count LogEntry.ensured = 1 := by
  have h0 : missingVars envFull = [] := by decide
  have hok : ∀ (s : Unit) (req : GqlRequest),
      (execReq ((stepUnit s req).2) req).1 = Except.ok () := by
    intro s req
    cases req <;> rfl
  have h := fullSuccessSingleConfirmation envFull stepUnit ()
  have hexit := h.2 h0 hok
  exact ⟨h0, hexit, by rw [h.1, if_pos hexit]⟩

/-- A remote backend as hypothesised by the idempotence property: it
persists created definitions (metaobject type names; metafield
namespace/key/owner triples) and answers a creation request for an
existing definition with an "already exists" user error. `dupServed`
records the requests answered through that duplicate path. -/
structure Backend where
  metaobjectTypes : List String
  metafieldKeys : List (String × String × String)
  dupServed : List GqlRequest
deriving DecidableEq, Repr

/-- The backend before any run. -/
def emptyBackend : Backend := ⟨[], [], []⟩

/-- Transition of the persisting backend on one creation request: create
and remember the definition when it is new, otherwise leave the state
unchanged and report a duplicate user error whose wording matches the
script's heuristics. -/
def backendStep (b : Backend) (req : GqlRequest) : Backend × HttpResponse :=
  match req with
  | GqlRequest.metaobjectCreate d =>
    if b.metaobjectTypes.contains d.type then
      ({ b with dupServed := b.dupServed ++ [req] },
       ⟨true, 200, "OK",
        ⟨some ⟨some ⟨some [⟨"type", "Type \"" ++ d.type ++ "\" already exists."⟩]⟩, none⟩,
         none⟩⟩)
    else
      ({ b with metaobjectTypes := b.metaobjectTypes ++ [d.type] },
       ⟨true, 200, "OK", ⟨some ⟨some ⟨some []⟩, none⟩, none⟩⟩)
  | GqlRequest.metafieldCreate d =>
    if b.metafieldKeys.contains (d.nspace, d.key, d.ownerType) then
      ({ b with dupServed := b.dupServed ++ [req] },
       ⟨true, 200, "OK",
        ⟨some ⟨none, some ⟨some
          [⟨"key", "A definition with this namespace and key already exists."⟩]⟩⟩,
         none⟩⟩)
    else
      ({ b with metafieldKeys := b.metafieldKeys ++ [(d.nspace, d.key, d.ownerType)] },
       ⟨true, 200, "OK", ⟨some ⟨none, some ⟨some []⟩⟩, none⟩⟩)

/-- C8: against the persisting backend, the first run creates each of
the seven definitions exactly once and both runs exit 0; the second run
leaves the backend's definitions unchanged and resolves all seven
creation attempts through the duplicate-suppression path. -/
theorem provisionerIdempotent (env : Env) (h : missingVars env = []) :
    (mainRun env backendStep emptyBackend).exitCode = 0 ∧
    (mainRun env backendStep
       (mainRun env backendStep emptyBackend).finalState).exitCode = 0 ∧
    (mainRun env backendStep
       (mainRun env backendStep emptyBackend).finalState).finalState.metaobjectTypes =
      (mainRun env backendStep emptyBackend).finalState.metaobjectTypes ∧
    (mainRun env backendStep
       (mainRun env backendStep emptyBackend).finalState).finalState.metafieldKeys =
      (mainRun env backendStep emptyBackend).finalState.metafieldKeys ∧
    (mainRun env backendStep emptyBackend).finalState.metaobjectTypes =
      ["badge", "testimonial", "press_logo"] ∧
    (mainRun env backendStep emptyBackend).finalState.metafieldKeys =
      [("qf", "hero_eyebrow", "PRODUCT"), ("qf", "review_count", "PRODUCT"),
       ("qf", "avg_rating", "PRODUCT"), ("qf", "usp_pills", "PRODUCT")] ∧
    (mainRun env backendStep emptyBackend).finalState.dupServed = [] ∧
    (mainRun env backendStep
       (mainRun env backendStep emptyBackend).finalState).finalState.dupServed =
      plannedRequests := by
  have hv : ∀ s0 : Backend, mainRun env backendStep s0 = mainBody backendStep s0 :=
    fun s0 => by simp [mainRun, h]
  simp only [hv]
  have hstate : (mainBody backendStep emptyBackend).finalState =
      ⟨["badge", "testimonial", "press_logo"],
       [("qf", "hero_eyebrow", "PRODUCT"), ("qf", "review_count", "PRODUCT"),
        ("qf", "avg_rating", "PRODUCT"), ("qf", "usp_pills", "PRODUCT")], []⟩ := by
    decide
  refine ⟨by decide, ?_, ?_, ?_, by decide, by decide, by decide, ?_⟩ <;>
    rw [hstate] <;> decide

/-- C8 witness: the idempotence property instantiated with the fully
populated environment. -/
theorem provisionerIdempotent_witness :
    missingVars envFull = [] ∧
    ((mainRun envFull backendStep emptyBackend).exitCode = 0 ∧
     (mainRun envFull backendStep
        (mainRun envFull backendStep emptyBackend).finalState).exitCode = 0 ∧
     (mainRun envFull backendStep
        (mainRun envFull backendStep emptyBackend).finalState).finalState.metaobjectTypes =
       (mainRun envFull backendStep emptyBackend).finalState.metaobjectTypes ∧
     (mainRun envFull backendStep
        (mainRun envFull backendStep emptyBackend).finalState).finalState.metafieldKeys =
       (mainRun envFull backendStep emptyBackend).finalState.metafieldKeys ∧
     (mainRun envFull backendStep emptyBackend).finalState.metaobjectTypes =
       ["badge", "testimonial", "press_logo"] ∧
     (mainRun envFull backendStep emptyBackend).finalState.metafieldKeys =
       [("qf", "hero_eyebrow", "PRODUCT"), ("qf", "review_count", "PRODUCT"),
        ("qf", "avg_rating", "PRODUCT"), ("qf", "usp_pills", "PRODUCT")] ∧
     (mainRun envFull backendStep emptyBackend).finalState.dupServed = [] ∧
     (mainRun envFull backendStep
        (mainRun envFull backendStep emptyBackend).finalState).finalState.dupServed =
       plannedRequests) :=
  ⟨by decide, provisionerIdempotent envFull (by decide)⟩

/-- The backend state reached after stepping through the requests of `l`
in order (the state the run is in before the request that follows `l`,
as long as no earlier request threw). -/
def stateAt {σ : Type} (step : σ → GqlRequest → σ × HttpResponse) (s : σ)
    (l : List GqlRequest) : σ :=
  l.foldl (fun s req => (step s req).1) s

/-- Running one pass over an appended list first runs the left part and,
only when it threw nothing, continues with the right part from the state
the left part reached. -/
theorem runSeq_append {σ : Type} (step : σ → GqlRequest → σ × HttpResponse) :
    ∀ (l1 l2 : List GqlRequest) (s : σ),
      runSeq step s (l1 ++ l2) =
        match (runSeq step s l1).err with
        | some _ => runSeq step s l1
        | none =>
          ⟨(runSeq step (runSeq step s l1).state l2).state,
           (runSeq step s l1).requests ++ (runSeq step (runSeq step s l1).state l2).requests,
           (runSeq step s l1).log ++ (runSeq step (runSeq step s l1).state l2).log,
           (runSeq step (runSeq step s l1).state l2).err⟩ := by
  intro l1
  induction l1 with
  | nil => intro l2 s; simp [runSeq]
  | cons req rest ih =>
    intro l2 s
    rcases hx : execReq (step s req).2 req with ⟨res, lg⟩
    cases res with
    | error e => simp [runSeq, hx]
    | ok u =>
      cases hB : (runSeq step (step s req).1 rest).err with
      | some e => simp [runSeq, hx, ih, hB]
      | none => simp [runSeq, hx, ih, hB]

/-- When the requests before index `i` are all processed without an
exception and the request at index `i` throws `e`, a pass attempts
exactly the requests up to and including index `i` and stops with `e`:
the requests after the failing one are not attempted. -/
theorem runSeq_firstFail {σ : Type} (step : σ → GqlRequest → σ × HttpResponse) :
    ∀ (l : List GqlRequest) (s : σ) (i : Nat) (hi : i < l.length) (e : JsErr),
      (∀ (j : Nat) (hj : j < i),
        (execReq (step (stateAt step s (l.take j)) (l.get ⟨j, Nat.lt_trans hj hi⟩)).2
          (l.get ⟨j, Nat.lt_trans hj hi⟩)).1 = Except.ok ()) →
      (execReq (step (stateAt step s (l.take i)) (l.get ⟨i, hi⟩)).2
          (l.get ⟨i, hi⟩)).1 = Except.error e →
      (runSeq step s l).requests = l.take (i + 1) ∧ (runSeq step s l).err = some e := by
  intro l
  induction l with
  | nil =>
    intro s i hi
    exact absurd hi (by simp)
  | cons req rest ih =>
    intro s i hi e hprev hfail
    cases i with
    | zero =>
      simp only [List.take_zero, stateAt, List.foldl_nil, List.get] at hfail
      rcases hx : execReq (step s req).2 req with ⟨res, lg⟩
      rw [hx] at hfail
      simp only at hfail
      subst hfail
      simp [runSeq, hx]
    | succ i =>
      have h0 := hprev 0 (Nat.succ_pos i)
      simp only [List.take_zero, stateAt, List.foldl_nil, List.get] at h0
      rcases hx : execReq (step s req).2 req with ⟨res, lg⟩
      rw [hx] at h0
      simp only at h0
      subst h0
      have hi' : i < rest.length := Nat.lt_of_succ_lt_succ hi
      have hprev' : ∀ (j : Nat) (hj : j < i),
          (execReq (step (stateAt step (step s req).1 (rest.take j))
              (rest.get ⟨j, Nat.lt_trans hj hi'⟩)).2
            (rest.get ⟨j, Nat.lt_trans hj hi'⟩)).1 = Except.ok () := by
        intro j hj
        have hstep := hprev (j + 1) (Nat.succ_lt_succ hj)
        simpa [List.take_succ_cons, stateAt, List.foldl_cons, List.get] using hstep
      have hfail' : (execReq (step (stateAt step (step s req).1 (rest.take i))
            (rest.get ⟨i, hi'⟩)).2 (rest.get ⟨i, hi'⟩)).1 = Except.error e := by
        simpa [List.take_succ_cons, stateAt, List.foldl_cons, List.get] using hfail
      obtain ⟨hr, he⟩ := ih (step s req).1 i hi' e hprev' hfail'
      constructor
      · simp [runSeq, hx, hr]
      · simp [runSeq, hx, he]

/-- The two awaited loops of `main` behave, for requests, exception and
exit code, like one sequential pass over the seven planned requests. -/
theorem mainBody_singlePass {σ : Type} (step : σ → GqlRequest → σ × HttpResponse)
    (s0 : σ) :
    (mainBody step s0).requests = (runSeq step s0 plannedRequests).requests ∧
    (mainBody step s0).err = (runSeq step s0 plannedRequests).err ∧
    (mainBody step s0).exitCode =
      (if (runSeq step s0 plannedRequests).err = none then 0 else 1) := by
  have happ := runSeq_append step (metaobjects.map GqlRequest.metaobjectCreate)
    (metafields.map GqlRequest.metafieldCreate) s0
  simp only [plannedRequests]
  rcases h1 : runSeq step s0 (metaobjects.map GqlRequest.metaobjectCreate)
    with ⟨s1, reqs1, lg1, err1⟩
  rw [h1] at happ
  cases err1 with
  | some e =>
    simp only at happ
    simp only [happ]
    simp [mainBody, h1]
  | none =>
    simp only at happ
    rcases h2 : runSeq step s1 (metafields.map GqlRequest.metafieldCreate)
      with ⟨s2, reqs2, lg2, err2⟩
    rw [h2] at happ
    simp only [happ]
    cases err2 with
    | some e => simp [mainBody, h1, h2]
    | none => simp [mainBody, h1, h2]

/-- C2: with a valid environment the run is sequential and
short-circuiting over the planned metaobjects-then-metafields sequence:
the issued requests are an initial segment of it, the run exits 0
exactly when no exception was thrown, a clean run issues all seven
requests, a metaobject-pass failure prevents every metafield request,
and — in general — when the spec at index `i` is the first to throw,
exactly the requests up to and including index `i` are attempted (none
after it) and the run ends with that exception and exit code 1. -/
theorem sequentialShortCircuit {σ : Type} (env : Env)
    (step : σ → GqlRequest → σ × HttpResponse) (s0 : σ) (h : missingVars env = []) :
    (∃ k, k ≤ plannedRequests.length ∧
       (mainRun env step s0).requests = plannedRequests.take k) ∧
    ((mainRun env step s0).err = none ↔ (mainRun env step s0).exitCode = 0) ∧
    ((mainRun env step s0).err = none →
       (mainRun env step s0).requests = plannedRequests) ∧
    ((runSeq step s0 (metaobjects.map GqlRequest.metaobjectCreate)).err ≠ none →
       ∀ dm : MetafieldDef,
         GqlRequest.metafieldCreate dm ∉ (mainRun env step s0).requests) ∧
    (∀ (i : Nat) (hi : i < plannedRequests.length) (e : JsErr),
       (∀ (j : Nat) (hj : j < i),
          (execReq (step (stateAt step s0 (plannedRequests.take j))
              (plannedRequests.get ⟨j, Nat.lt_trans hj hi⟩)).2
            (plannedRequests.get ⟨j, Nat.lt_trans hj hi⟩)).1 = Except.ok ()) →
       (execReq (step (stateAt step s0 (plannedRequests.take i))
            (plannedRequests.get ⟨i, hi⟩)).2
          (plannedRequests.get ⟨i, hi⟩)).1 = Except.error e →
       (mainRun env step s0).requests = plannedRequests.take (i + 1) ∧
       (mainRun env step s0).err = some e ∧
       (mainRun env step s0).exitCode = 1) := by
  have hrw : mainRun env step s0 = mainBody step s0 := by simp [mainRun, h]
  obtain ⟨hreq, herr, hexit⟩ := mainBody_singlePass step s0
  obtain ⟨k, hk, hkreq, hkfull⟩ := runSeq_take step plannedRequests s0
  refine ⟨⟨k, hk, by rw [hrw, hreq, hkreq]⟩, ?_, ?_, ?_, ?_⟩
  · rw [hrw, herr, hexit]
    cases hc : (runSeq step s0 plannedRequests).err with
    | none => simp
    | some e => simp
  · intro hnone
    rw [hrw, herr] at hnone
    rw [hrw, hreq]
    exact hkfull hnone
  · intro hfail1 dm hmem
    rw [hrw, hreq] at hmem
    have happ := runSeq_append step (metaobjects.map GqlRequest.metaobjectCreate)
      (metafields.map GqlRequest.metafieldCreate) s0
    obtain ⟨k1, hk1, hkreq1, hkfull1⟩ :=
      runSeq_take step (metaobjects.map GqlRequest.metaobjectCreate) s0
    rcases h1 : runSeq step s0 (metaobjects.map GqlRequest.metaobjectCreate)
      with ⟨s1, reqs1, lg1, err1⟩
    rw [h1] at happ hkreq1 hfail1
    simp only at happ hkreq1 hfail1
    cases err1 with
    | none => exact absurd rfl hfail1
    | some e =>
      rw [plannedRequests, happ] at hmem
      simp only at hmem
      rw [hkreq1] at hmem
      have hsub : GqlRequest.metafieldCreate dm ∈
          metaobjects.map GqlRequest.metaobjectCreate := List.take_subset _ _ hmem
      simp [List.mem_map] at hsub
  · intro i hi e hprev hfail
    obtain ⟨hr, he⟩ := runSeq_firstFail step plannedRequests s0 i hi e hprev hfail
    refine ⟨by rw [hrw, hreq, hr], by rw [hrw, herr, he], ?_⟩
    rw [hrw, hexit, he]
    simp

/-- A stateless mock remote API that answers the `review_count`
metafield creation (the fifth planned request, second metafield) with a
non-duplicate user error and every other request with a clean success. -/
def stepFailReview : Unit → GqlRequest → Unit × HttpResponse :=
  fun _ req =>
    match req with
    | GqlRequest.metafieldCreate d =>
      if d.key == "review_count" then
        ((), ⟨true, 200, "OK", ⟨some ⟨none, some ⟨some [⟨"key", "boom"⟩]⟩⟩, none⟩⟩)
      else
        ((), ⟨true, 200, "OK", ⟨some ⟨some ⟨some []⟩, some ⟨some []⟩⟩, none⟩⟩)
    | GqlRequest.metaobjectCreate _ =>
      ((), ⟨true, 200, "OK", ⟨some ⟨some ⟨some []⟩, some ⟨some []⟩⟩, none⟩⟩)

/-- C2 witness: when the fifth planned request (the `review_count`
metafield) is the first to fail, exactly the first five requests are
attempted — the two metafield specs after it are not — and the run ends
with the creation error and exit code 1. -/
theorem sequentialShortCircuit_witness :
    missingVars envFull = [] ∧
    4 < plannedRequests.length ∧
    (mainRun envFull stepFailReview ()).requests = plannedRequests.take 5 ∧
    (mainRun envFull stepFailReview ()).err =
      some (JsErr.error "Metafield creation failed") ∧
    (mainRun envFull stepFailReview ()).exitCode = 1 := by
  have h4 : (4 : Nat) < plannedRequests.length := by decide
  have hprev : ∀ (j : Nat) (hj : j < 4),
      (execReq (stepFailReview (stateAt stepFailReview () (plannedRequests.take j))
          (plannedRequests.get ⟨j, Nat.lt_trans hj h4⟩)).2
        (plannedRequests.get ⟨j, Nat.lt_trans hj h4⟩)).1 = Except.ok () := by
    intro j hj
    interval_cases j <;> rfl
  have hfail : (execReq (stepFailReview (stateAt stepFailReview () (plannedRequests.take 4))
        (plannedRequests.get ⟨4, h4⟩)).2 (plannedRequests.get ⟨4, h4⟩)).1 =
      Except.error (JsErr.error "Metafield creation failed") := by rfl
  have hmain := (sequentialShortCircuit envFull stepFailReview () (by decide)).2.2.2.2
    4 h4 (JsErr.error "Metafield creation failed") hprev hfail
  exact ⟨by decide, h4, hmain.1, hmain.2.1, hmain.2.2⟩
